import Mathlib

/-!
Verification of `proxygen/lib/http/codec/compress/HPACKHeaderName.h`.

`HPACKHeaderName` is a value type holding a single pointer `address_ :
const std::string*` that is either `nullptr` (the Empty state), a pointer
into the immutable `HTTPCommonHeaders` lowercase table (the Borrowed
state), or a pointer to a heap `std::string` this handle allocated and
owns (the Owned state).

We embed the value of `address_` shallowly as a three-constructor
inductive.  String content (`std::string` values) is modelled as `List
Char`, each `Char` standing for one byte; `==` on content is list
equality and `<` is lexicographic order, matching byte-wise
`std::string` comparison on ASCII data.  A Borrowed pointer is the index
of the table entry it points at (the table is a contiguous array, so
address order among table entries is index order).  An Owned pointer is
an allocation identifier paired with the content of the allocated
string; fresh identifiers are handed out by threading a `Nat` allocation
counter through the operations that may call `new`.  Dereferencing
(`*address_`) is modelled as a fallible operation returning `Except`,
erroring exactly on the null pointer.
-/

namespace HPACK

/-- Content of a `std::string`: a byte sequence. -/
abbrev Str := List Char

/-- Errors of the model: dereferencing a null `address_`. -/
inductive HErr where
  | invalidState : HErr
deriving DecidableEq, Repr

instance {ε α : Type} [DecidableEq ε] [DecidableEq α] :
    DecidableEq (Except ε α) := fun x y =>
  match x, y with
  | .ok a, .ok b =>
      if h : a = b then .isTrue (by rw [h])
      else .isFalse (fun hh => h (Except.ok.inj hh))
  | .error e, .error f =>
      if h : e = f then .isTrue (by rw [h])
      else .isFalse (fun hh => h (Except.error.inj hh))
  | .ok _, .error _ => .isFalse (fun hh => Except.noConfusion hh)
  | .error _, .ok _ => .isFalse (fun hh => Except.noConfusion hh)

/-- Modelled from the spec: the `CommonHeaderRegistry` table
(`HTTPCommonHeaders`, whose source is not under `src/`).  Per the spec it
is a process-wide immutable table of canonical, ASCII-lowercase
well-known header names, laid out in alphabetical order; it contains
well-known names such as `host` and `content-length`.  We fix a
representative table with those properties. -/
def commonHeaderTable : List Str :=
  ["accept", "accept-encoding", "accept-language", "cache-control",
   "connection", "content-length", "content-type", "cookie", "date",
   "host", "user-agent"].map String.toList

/-- ASCII `::tolower` on one byte, as applied by
`std::transform(..., ::tolower)` in `storeAddress`. -/
def asciiLower (c : Char) : Char :=
  if ('A' ≤ c ∧ c ≤ 'Z') then Char.ofNat (c.toNat + 32) else c

/-- The ASCII-lowercased form of a byte string. -/
def lowerStr (s : Str) : Str :=
  s.map asciiLower

/-- First index of `s` in `l`, or `none`. -/
def lookupIdx (l : List Str) (s : Str) : Option Nat :=
  match l with
  | [] => none
  | x :: xs =>
      if x = s then some 0 else (lookupIdx xs s).map (· + 1)

/-- Modelled from the spec: `CommonHeaderRegistry.classify`
(`HTTPCommonHeaders::hash`, not under `src/`): map raw text,
case-insensitively, to the table index of the matching canonical
lowercase name, or `none` (the `HTTP_HEADER_NONE` / `HTTP_HEADER_OTHER`
sentinels) when the text matches no table entry. -/
def classify (name : Str) : Option Nat :=
  lookupIdx commonHeaderTable (lowerStr name)

/-- The value of the `address_` field of an `HPACKHeaderName`:
`empty` is `nullptr`; `common i` points at entry `i` of the
`HTTPCommonHeaders` lowercase table; `owned id s` points at heap
allocation number `id`, a `std::string` whose content is `s`. -/
inductive HPACKHeaderName where
  | empty : HPACKHeaderName
  | common (i : Nat) : HPACKHeaderName
  | owned (id : Nat) (s : Str) : HPACKHeaderName
deriving DecidableEq, Repr

namespace HPACKHeaderName

/-- `*address_`: dereference the stored pointer.  The source performs a
raw dereference that is undefined on `nullptr`; following the spec's
error design, the model reports `InvalidState` there.  A Borrowed
pointer yields its table entry. -/
def deref : HPACKHeaderName → Except HErr Str
  | .empty => .error .invalidState
  | .common i => .ok (commonHeaderTable.getD i [])
  | .owned _ s => .ok s

/-- `isAllocated()`: `address_ != nullptr` and
`!HTTPCommonHeaders::isHeaderNameFromTable(address_)` — table pointers
are exactly the `common` values, so only `owned` is allocated. -/
def isAllocated : HPACKHeaderName → Bool
  | .empty => false
  | .common _ => false
  | .owned _ _ => true

/-- `isCommonName()`: `address_ != nullptr && !isAllocated()`. -/
def isCommonName (h : HPACKHeaderName) : Bool :=
  !(h = empty : Bool) && !h.isAllocated

/-- `storeAddress(name)`: classify via `HTTPCommonHeaders::hash`; on the
sentinel codes allocate a fresh string filled with the lowercased bytes
of `name` (the `new std::string` + `std::transform(::tolower)` path),
otherwise borrow the table pointer for the matched code.  `nextId` is
the allocation counter; the returned counter is bumped iff `new` ran. -/
def storeAddress (name : Str) (nextId : Nat) : HPACKHeaderName × Nat :=
  match classify name with
  | none => (owned nextId (lowerStr name), nextId + 1)
  | some i => (common i, nextId)

/-- The converting constructor `HPACKHeaderName(folly::StringPiece)`,
which just calls `storeAddress`. -/
def mk (name : Str) (nextId : Nat) : HPACKHeaderName × Nat :=
  storeAddress name nextId

/-- `address_ == headerName.address_`: raw pointer equality.  Pointers
from distinct regions (null / table / heap) are never equal; table
pointers are equal iff they index the same entry; heap pointers are
equal iff they are the same allocation. -/
def ptrEq : HPACKHeaderName → HPACKHeaderName → Bool
  | .empty, .empty => true
  | .common i, .common j => i == j
  | .owned a _, .owned b _ => a == b
  | _, _ => false

/-- `address_ < headerName.address_`: raw pointer order, consulted by
the comparison operators only when neither operand `isAllocated()` (so
only on null and table pointers).  `nullptr` is address 0, below every
table entry; the table is a contiguous array, so entry addresses are
ordered by index.  The heap cases are never reached by the operators;
we order them by allocation number and put the heap region above the
table. -/
def ptrLt : HPACKHeaderName → HPACKHeaderName → Bool
  | .empty, .empty => false
  | .empty, .common _ => true
  | .common _, .empty => false
  | .common i, .common j => i < j
  | .owned a _, .owned b _ => a < b
  | .empty, .owned _ _ => true
  | .owned _ _, .empty => false
  | .common _, .owned _ _ => true
  | .owned _ _, .common _ => false

/-- `operator==`: `address_ == headerName.address_ || *address_ ==
*(headerName.address_)`; the pointer test short-circuits, so the
dereference runs only when the pointers differ. -/
def beqE (a b : HPACKHeaderName) : Except HErr Bool :=
  if ptrEq a b then .ok true
  else do
    let s ← a.deref
    let t ← b.deref
    .ok (s = t)

/-- `operator!=`: `!(*this == headerName)`. -/
def bneE (a b : HPACKHeaderName) : Except HErr Bool :=
  (beqE a b).map (!·)

/-- `operator<`: pointer order when neither side `isAllocated()`,
otherwise dereference both and compare the strings byte-wise. -/
def bltE (a b : HPACKHeaderName) : Except HErr Bool :=
  if !a.isAllocated && !b.isAllocated then .ok (ptrLt a b)
  else do
    let s ← a.deref
    let t ← b.deref
    .ok (s < t)

/-- `operator>`: pointer order when neither side `isAllocated()`,
otherwise dereference both and compare the strings byte-wise. -/
def bgtE (a b : HPACKHeaderName) : Except HErr Bool :=
  if !a.isAllocated && !b.isAllocated then .ok (ptrLt b a)
  else do
    let s ← a.deref
    let t ← b.deref
    .ok (t < s)

/-- `operator>=`: `!(*this < headerName)`. -/
def bgeE (a b : HPACKHeaderName) : Except HErr Bool :=
  (bltE a b).map (!·)

/-- `operator<=`: `!(*this > headerName)`. -/
def bleE (a b : HPACKHeaderName) : Except HErr Bool :=
  (bgtE a b).map (!·)

/-- `get()`: `return *address_`. -/
def get (h : HPACKHeaderName) : Except HErr Str :=
  h.deref

/-- `size()`: `(uint32_t)(address_->size())` — the byte length of the
content, truncated to 32 bits by the cast. -/
def size (h : HPACKHeaderName) : Except HErr Nat :=
  h.deref.map (fun s => s.length % 2 ^ 32)

/-- `data()`: `address_->data()` — exposes the content bytes. -/
def data (h : HPACKHeaderName) : Except HErr Str :=
  h.deref

/-- `c_str()`: `address_->c_str()` — exposes the content bytes. -/
def c_str (h : HPACKHeaderName) : Except HErr Str :=
  h.deref

/-- A model of `std::hash<std::string>`: some fixed pure function of the
byte content (the standard only promises determinism on equal content,
which is all the source relies on). -/
def hashStr (s : Str) : UInt64 :=
  s.foldl (fun h c => h * 31 + UInt64.ofNat c.toNat) 5381

/-- `std::hash<proxygen::HPACKHeaderName>::operator()`:
`std::hash<std::string>()(headerName.get())` — hash of the content
string obtained through `get()`. -/
def hashName (h : HPACKHeaderName) : Except HErr UInt64 :=
  h.get.map hashStr

/-- `copyAddress(headerName)`: if the source `isAllocated()`, run
`new std::string(headerName.get())` (a fresh allocation holding the same
content), else share the source's pointer.  Only `owned` satisfies
`isAllocated()`. -/
def copyAddress : HPACKHeaderName → Nat → HPACKHeaderName × Nat
  | .owned _ s, n => (owned n s, n + 1)
  | h, n => (h, n)

/-- `moveAddress(goner)`: `address_ = goner.address_;
goner.address_ = nullptr`.  Returns (this handle's new address, the
goner's new address). -/
def moveAddress (goner : HPACKHeaderName) : HPACKHeaderName × HPACKHeaderName :=
  (goner, empty)

/-- `resetAddress()`: free the buffer when `isAllocated()` (a heap
effect), then `address_ = nullptr` — the handle's new address is always
null. -/
def resetAddress (_h : HPACKHeaderName) : HPACKHeaderName :=
  empty

/-- Copy assignment `operator=(const HPACKHeaderName&)` with distinct
source and destination objects: `resetAddress()` releases the
destination, then `copyAddress(headerName)` installs a copy of the
source.  The destination's old value does not influence the result. -/
def assignCopy (_dest src : HPACKHeaderName) (n : Nat) : HPACKHeaderName × Nat :=
  copyAddress src n

/-- Move assignment `operator=(HPACKHeaderName&&)` with distinct source
and destination: `resetAddress()` then `moveAddress(goner)`.  Returns
(destination's new address, source's new address). -/
def assignMove (_dest src : HPACKHeaderName) : HPACKHeaderName × HPACKHeaderName :=
  moveAddress src

/-- Copy assignment `a = a` where source and destination are the same
object: `resetAddress()` first sets the one shared `address_` to null
(deleting the owned buffer), so the subsequent `copyAddress` reads the
already-reset object. -/
def assignCopySelf (a : HPACKHeaderName) (n : Nat) : HPACKHeaderName × Nat :=
  copyAddress (resetAddress a) n

/-- Move assignment `a = std::move(a)` on a single object:
`resetAddress()` nulls the shared `address_`, then `moveAddress` copies
that null back and nulls it again. -/
def assignMoveSelf (a : HPACKHeaderName) : HPACKHeaderName :=
  (moveAddress (resetAddress a)).1

/-- The handle is well-formed: a Borrowed pointer stays inside the
table. -/
def wf : HPACKHeaderName → Bool
  | .common i => i < commonHeaderTable.length
  | _ => true

/-- The content denoted by a handle (`[]` for the null pointer, where
the source has no defined content). -/
def contentD : HPACKHeaderName → Str
  | .empty => []
  | .common i => commonHeaderTable.getD i []
  | .owned _ s => s

/-- Pointer equality is only sound when equal pointers denote the same
object; the program maintains this (two live handles share an owned
allocation never, and table pointers with equal addresses are the same
entry). -/
def PtrSound (a b : HPACKHeaderName) : Prop :=
  ptrEq a b = true → a = b

instance (a b : HPACKHeaderName) : Decidable (PtrSound a b) :=
  if h : ptrEq a b = true then
    if he : a = b then .isTrue (fun _ => he)
    else .isFalse (fun f => he (f h))
  else .isTrue (fun hh => absurd hh h)

end HPACKHeaderName

namespace HPACKHeaderName

lemma table_sorted : commonHeaderTable.Sorted (· < ·) := by decide

lemma table_lt_iff {i j : Nat} (hi : i < commonHeaderTable.length)
    (hj : j < commonHeaderTable.length) :
    i < j ↔ commonHeaderTable.getD i [] < commonHeaderTable.getD j [] := by
  rw [List.getD_eq_getElem _ _ hi, List.getD_eq_getElem _ _ hj]
  constructor
  · intro hij
    have := List.pairwise_iff_get.1 table_sorted ⟨i, hi⟩ ⟨j, hj⟩ hij
    simpa using this
  · intro hlt
    rcases Nat.lt_trichotomy i j with h | h | h
    · exact h
    · subst h
      exact absurd hlt (lt_irrefl _)
    · have := List.pairwise_iff_get.1 table_sorted ⟨j, hj⟩ ⟨i, hi⟩ h
      exact absurd hlt (by simpa using asymm this)

lemma lookupIdx_some {l : List Str} {s : Str} {i : Nat}
    (h : lookupIdx l s = some i) : i < l.length ∧ l.getD i [] = s := by
  induction l generalizing i with
  | nil => simp [lookupIdx] at h
  | cons x xs ih =>
    rw [lookupIdx] at h
    by_cases hx : x = s
    · simp only [if_pos hx, Option.some.injEq] at h
      subst h
      exact ⟨Nat.succ_pos _, hx⟩
    · simp only [if_neg hx, Option.map_eq_some'] at h
      obtain ⟨a, ha, rfl⟩ := h
      obtain ⟨h1, h2⟩ := ih ha
      exact ⟨Nat.succ_lt_succ h1, by simpa using h2⟩

lemma classify_some {name : Str} {i : Nat} (h : classify name = some i) :
    i < commonHeaderTable.length ∧
      commonHeaderTable.getD i [] = lowerStr name :=
  lookupIdx_some h

lemma deref_eq_contentD {h : HPACKHeaderName} (hne : h ≠ .empty) :
    h.deref = .ok (contentD h) := by
  cases h with
  | empty => exact absurd rfl hne
  | common i => rfl
  | owned id s => rfl

lemma wf_common {i : Nat} (h : wf (common i) = true) :
    i < commonHeaderTable.length := by
  simpa [wf] using h

lemma mk_fst_ne_empty (name : Str) (n : Nat) : (mk name n).1 ≠ .empty := by
  unfold mk storeAddress
  cases hc : classify name <;> simp

lemma mk_fst_wf (name : Str) (n : Nat) : wf (mk name n).1 = true := by
  unfold mk storeAddress
  cases hc : classify name with
  | none => simp [wf]
  | some i =>
    have := (classify_some hc).1
    simpa [wf] using this

lemma bltE_eq_content {a b : HPACKHeaderName} (ha : wf a = true)
    (hb : wf b = true) (hna : a ≠ .empty) (hnb : b ≠ .empty) :
    bltE a b = .ok (decide (contentD a < contentD b)) := by
  cases a with
  | empty => exact absurd rfl hna
  | common i =>
    cases b with
    | empty => exact absurd rfl hnb
    | common j =>
      have hi := wf_common ha
      have hj := wf_common hb
      have hd : (decide (i < j)) =
          decide (contentD (common i) < contentD (common j)) :=
        decide_eq_decide.2 (by simpa [contentD] using table_lt_iff hi hj)
      calc bltE (common i) (common j) = .ok (decide (i < j)) := rfl
        _ = _ := by rw [hd]
    | owned id s => rfl
  | owned id s =>
    cases b with
    | empty => exact absurd rfl hnb
    | common j => rfl
    | owned id2 t => rfl

lemma bgtE_eq_bltE (a b : HPACKHeaderName) : bgtE a b = bltE b a := by
  cases a <;> cases b <;> rfl

lemma beqE_eq_content {a b : HPACKHeaderName} (hps : PtrSound a b)
    (hna : a ≠ .empty) (hnb : b ≠ .empty) :
    beqE a b = .ok (decide (contentD a = contentD b)) := by
  cases a with
  | empty => exact absurd rfl hna
  | common i =>
    cases b with
    | empty => exact absurd rfl hnb
    | common j =>
      by_cases hij : i = j
      · subst hij
        simp [beqE, ptrEq]
      · have hp : ptrEq (common i) (common j) = false := by
          simpa [ptrEq] using hij
        simp only [beqE, hp, Bool.false_eq_true, if_false]
        rfl
    | owned id s => rfl
  | owned id s =>
    cases b with
    | empty => exact absurd rfl hnb
    | common j => rfl
    | owned id2 t =>
      by_cases hij : id = id2
      · subst hij
        have heq : owned id s = owned id t := hps (by simp [ptrEq])
        have hst : s = t := by injection heq
        subst hst
        simp [beqE, ptrEq]
      · have hp : ptrEq (owned id s) (owned id2 t) = false := by
          simpa [ptrEq] using hij
        simp only [beqE, hp, Bool.false_eq_true, if_false]
        rfl

lemma mk_content (name : Str) (n : Nat) :
    ((mk name n).1).deref = .ok (lowerStr name) := by
  unfold mk storeAddress
  cases hc : classify name with
  | none => rfl
  | some i =>
    have := (classify_some hc).2
    simpa [deref] using this

end HPACKHeaderName

namespace HPACKHeaderName

lemma exceptBind_ok {α β : Type} (a : α) (f : α → Except HErr β) :
    (Except.ok a >>= f) = f a := rfl

lemma mk_eq_of_classify_none {name : Str} {n : Nat}
    (h : classify name = none) :
    mk name n = (owned n (lowerStr name), n + 1) := by
  unfold mk storeAddress
  rw [h]

lemma mk_eq_of_classify_some {name : Str} {n i : Nat}
    (h : classify name = some i) :
    mk name n = (common i, n) := by
  unfold mk storeAddress
  rw [h]

lemma mk_ptrSound (N1 N2 : Str) (n : Nat) :
    PtrSound (mk N1 n).1 (mk N2 (mk N1 n).2).1 := by
  cases hc1 : classify N1 with
  | none =>
    rw [mk_eq_of_classify_none hc1]
    cases hc2 : classify N2 with
    | none =>
      rw [mk_eq_of_classify_none hc2]
      intro h
      simp only [ptrEq, beq_iff_eq] at h
      exact absurd h (Nat.ne_of_lt (Nat.lt_succ_self n))
    | some j =>
      rw [mk_eq_of_classify_some hc2]
      intro h
      simp only [ptrEq] at h
      exact Bool.noConfusion h
  | some i =>
    rw [mk_eq_of_classify_some hc1]
    cases hc2 : classify N2 with
    | none =>
      rw [mk_eq_of_classify_none hc2]
      intro h
      simp only [ptrEq] at h
      exact Bool.noConfusion h
    | some j =>
      rw [mk_eq_of_classify_some hc2]
      intro h
      simp only [ptrEq, beq_iff_eq] at h
      exact congrArg common h

lemma contentD_mk (name : Str) (n : Nat) :
    contentD (mk name n).1 = lowerStr name := by
  have h1 := deref_eq_contentD (mk_fst_ne_empty name n)
  have h2 := mk_content name n
  exact Except.ok.inj (h1.symm.trans h2)

lemma isOk_map {α β : Type} (f : α → β) (x : Except HErr α) :
    (x.map f).isOk = x.isOk := by
  cases x <;> rfl

lemma beqE_isOk {a b : HPACKHeaderName} (hna : a ≠ .empty)
    (hnb : b ≠ .empty) : (beqE a b).isOk = true := by
  by_cases hp : ptrEq a b = true
  · simp [beqE, hp, Except.isOk, Except.toBool]
  · simp [beqE, hp, deref_eq_contentD hna, deref_eq_contentD hnb,
      exceptBind_ok, Except.isOk, Except.toBool]

lemma bltE_isOk {a b : HPACKHeaderName} (hna : a ≠ .empty)
    (hnb : b ≠ .empty) : (bltE a b).isOk = true := by
  by_cases hp : (!a.isAllocated && !b.isAllocated) = true
  · simp [bltE, hp, Except.isOk, Except.toBool]
  · simp [bltE, hp, deref_eq_contentD hna, deref_eq_contentD hnb,
      exceptBind_ok, Except.isOk, Except.toBool]

/-- C5: every constructed handle's content is the ASCII-lowercased form
of the input text, whether the handle is Borrowed or Owned; in
particular `handle("Content-Length")` reads back `"content-length"` and
`handle("X-Foo")` reads back `"x-foo"`. -/
theorem claim5_content_lowercased :
    (∀ (name : Str) (n : Nat), ((mk name n).1).get = .ok (lowerStr name)) ∧
    ((mk "Content-Length".toList 0).1.get = .ok "content-length".toList) ∧
    ((mk "X-Foo".toList 0).1.get = .ok "x-foo".toList) :=
  ⟨fun name n => mk_content name n, by decide, by decide⟩

/-- C6: moving a handle (construction or assignment) transfers the
stored reference unchanged to the destination (no allocation, no content
access), leaves the source Empty, and a subsequent content access on the
source fails with `InvalidState`. -/
theorem claim6_move :
    (∀ a : HPACKHeaderName, moveAddress a = (a, .empty)) ∧
    (∀ dest a : HPACKHeaderName, assignMove dest a = (a, .empty)) ∧
    ((.empty : HPACKHeaderName).get = .error .invalidState) :=
  ⟨fun _ => rfl, fun _ _ => rfl, rfl⟩

/-- C7: `isCommonName()` is true exactly on Borrowed handles (registry
table pointers); `handle("Host")` reports true, `handle("X-Custom-Thing")`
reports false, and an Empty handle reports false. -/
theorem claim7_isCommonName :
    (∀ h : HPACKHeaderName, isCommonName h = true ↔ ∃ i, h = common i) ∧
    ((mk "Host".toList 0).1.isCommonName = true) ∧
    ((mk "X-Custom-Thing".toList 0).1.isCommonName = false) ∧
    ((.empty : HPACKHeaderName).isCommonName = false) := by
  refine ⟨fun h => ?_, by decide, by decide, by decide⟩
  cases h with
  | empty => simp [isCommonName, isAllocated]
  | common i => simp [isCommonName, isAllocated]
  | owned id s => simp [isCommonName, isAllocated]

/-- C8: copying preserves state and content: a Borrowed source is copied
by sharing the identical table reference with no allocation; an Owned
source is copied into a freshly allocated buffer (the fresh allocation
number `n`, bumping the counter) with identical content, never sharing
the source's buffer; an Empty source yields an Empty copy. -/
theorem claim8_copy :
    (∀ (i n : Nat), copyAddress (common i) n = (common i, n)) ∧
    (∀ (id : Nat) (s : Str) (n : Nat),
      copyAddress (owned id s) n = (owned n s, n + 1)) ∧
    (∀ (id : Nat) (s : Str) (n : Nat), id < n →
      ptrEq (copyAddress (owned id s) n).1 (owned id s) = false) ∧
    (∀ n : Nat, copyAddress .empty n = (.empty, n)) := by
  refine ⟨fun i n => rfl, fun id s n => rfl, fun id s n hlt => ?_, fun n => rfl⟩
  simpa [copyAddress, ptrEq] using Nat.ne_of_gt hlt

/-- C8 witness. -/
theorem claim8_copy_witness :
    ptrEq (copyAddress (owned 0 "x-foo".toList) 1).1
      (owned 0 "x-foo".toList) = false :=
  claim8_copy.2.2.1 0 "x-foo".toList 1 (by decide)

/-- C1: for any raw names `N1`, `N2` (and any allocator state), the
handles constructed from them compare equal iff the ASCII-lowercased
forms of `N1` and `N2` are equal; moreover the pointer-identity
short-circuit of `operator==` never disagrees with content comparison —
identical references imply identical content. -/
theorem claim1_eq_iff_lowercase (N1 N2 : Str) (n : Nat) :
    (beqE (mk N1 n).1 (mk N2 (mk N1 n).2).1 = .ok true ↔
      lowerStr N1 = lowerStr N2) ∧
    (ptrEq (mk N1 n).1 (mk N2 (mk N1 n).2).1 = true →
      ((mk N1 n).1).deref = ((mk N2 (mk N1 n).2).1).deref) := by
  have hne1 := mk_fst_ne_empty N1 n
  have hne2 := mk_fst_ne_empty N2 (mk N1 n).2
  have hps := mk_ptrSound N1 N2 n
  have hq := beqE_eq_content hps hne1 hne2
  have hc1 := contentD_mk N1 n
  have hc2 := contentD_mk N2 (mk N1 n).2
  constructor
  · rw [hq, hc1, hc2]
    constructor
    · intro h
      exact of_decide_eq_true (Except.ok.inj h)
    · intro h
      rw [h]
      simp
  · intro h
    rw [hps h]

/-- C1 witness: `handle("Host")` and `handle("HOST")` share the borrowed
table reference, and the short-circuit is content-consistent there. -/
theorem claim1_eq_iff_lowercase_witness :
    ((mk "Host".toList 0).1).deref =
      ((mk "HOST".toList (mk "Host".toList 0).2).1).deref :=
  (claim1_eq_iff_lowercase "Host".toList "HOST".toList 0).2 (by decide)

/-- C9: self-assignment is destructive for Owned handles: copy
self-assignment releases the owned buffer before reading the source (the
same object), leaving the handle Empty, and move self-assignment does
the same; the previous content is then unreachable — access fails with
`InvalidState`. -/
theorem claim9_self_assignment :
    (∀ (id : Nat) (s : Str) (n : Nat),
      assignCopySelf (owned id s) n = (.empty, n) ∧
      assignMoveSelf (owned id s) = .empty) ∧
    ((.empty : HPACKHeaderName).get = .error .invalidState) :=
  ⟨fun _ _ _ => ⟨rfl, rfl⟩, rfl⟩

/-- C2: over non-Empty well-formed handles (Borrowed pointers inside the
sorted registry table, owned allocations with sound pointer identity)
the comparison operators form a strict total order: `<` is irreflexive
(for every handle), asymmetric and antisymmetric with `==`, and
transitive; `a > b` is exactly `b < a`; `>=` and `<=` are the negations
of the opposite strict operators; the order is total on inequal
handles; and both regimes of `<` (address order when neither operand is
Owned, content order otherwise) agree with byte-wise content order — the
mutual-consistency property, valid because the table is laid out
alphabetically. -/
theorem claim2_strict_total_order :
    (∀ a : HPACKHeaderName, bltE a a = .ok false) ∧
    (∀ a b : HPACKHeaderName, wf a = true → wf b = true →
      a ≠ .empty → b ≠ .empty → PtrSound a b →
      bltE a b = .ok true →
      bltE b a = .ok false ∧ beqE a b = .ok false) ∧
    (∀ a b c : HPACKHeaderName, wf a = true → wf b = true →
      wf c = true → a ≠ .empty → b ≠ .empty → c ≠ .empty →
      bltE a b = .ok true → bltE b c = .ok true →
      bltE a c = .ok true) ∧
    (∀ a b : HPACKHeaderName, bgtE a b = bltE b a) ∧
    (∀ a b : HPACKHeaderName, bgeE a b = (bltE a b).map (!·) ∧
      bleE a b = (bgtE a b).map (!·)) ∧
    (∀ a b : HPACKHeaderName, wf a = true → wf b = true →
      a ≠ .empty → b ≠ .empty → PtrSound a b →
      beqE a b = .ok false →
      bltE a b = .ok true ∨ bltE b a = .ok true) ∧
    (∀ a b : HPACKHeaderName, wf a = true → wf b = true →
      a ≠ .empty → b ≠ .empty →
      bltE a b = .ok (decide (contentD a < contentD b))) := by
  refine ⟨?_, ?_, ?_, fun a b => bgtE_eq_bltE a b, fun a b => ⟨rfl, rfl⟩,
    ?_, fun a b ha hb hna hnb => bltE_eq_content ha hb hna hnb⟩
  · intro a
    cases a with
    | empty => rfl
    | common i => simp [bltE, isAllocated, ptrLt]
    | owned id s =>
      show (Except.ok (decide (s < s)) : Except HErr Bool) = .ok false
      simp
  · intro a b ha hb hna hnb hps hlt
    rw [bltE_eq_content ha hb hna hnb] at hlt
    have hc : contentD a < contentD b := of_decide_eq_true (Except.ok.inj hlt)
    constructor
    · rw [bltE_eq_content hb ha hnb hna]
      exact congrArg Except.ok (decide_eq_false (lt_asymm hc))
    · rw [beqE_eq_content hps hna hnb]
      exact congrArg Except.ok (decide_eq_false (ne_of_lt hc))
  · intro a b c ha hb hc hna hnb hnc hab hbc
    rw [bltE_eq_content ha hb hna hnb] at hab
    rw [bltE_eq_content hb hc hnb hnc] at hbc
    have h1 : contentD a < contentD b := of_decide_eq_true (Except.ok.inj hab)
    have h2 : contentD b < contentD c := of_decide_eq_true (Except.ok.inj hbc)
    rw [bltE_eq_content ha hc hna hnc]
    exact congrArg Except.ok (decide_eq_true (lt_trans h1 h2))
  · intro a b ha hb hna hnb hps hne
    rw [beqE_eq_content hps hna hnb] at hne
    have hc : contentD a ≠ contentD b := of_decide_eq_false (Except.ok.inj hne)
    rcases lt_or_gt_of_ne hc with h | h
    · exact Or.inl (by
        rw [bltE_eq_content ha hb hna hnb]
        exact congrArg Except.ok (decide_eq_true h))
    · exact Or.inr (by
        rw [bltE_eq_content hb ha hnb hna]
        exact congrArg Except.ok (decide_eq_true h))

/-- C2 witness: the order properties instantiated across both regimes —
Borrowed/Borrowed pairs compared by table address and mixed pairs
compared by content. -/
theorem claim2_strict_total_order_witness :
    bltE (owned 7 "zzz".toList) (owned 7 "zzz".toList) = .ok false ∧
    (bltE (common 6) (common 5) = .ok false ∧
      beqE (common 5) (common 6) = .ok false) ∧
    bltE (common 0) (owned 7 "zzz".toList) = .ok true ∧
    bgtE (common 0) (owned 3 "x".toList) = bltE (owned 3 "x".toList) (common 0) ∧
    (bltE (owned 2 "a".toList) (common 0) = .ok true ∨
      bltE (common 0) (owned 2 "a".toList) = .ok true) ∧
    bltE (common 9) (owned 0 "x-foo".toList) =
      .ok (decide (contentD (common 9) < contentD (owned 0 "x-foo".toList))) :=
  ⟨claim2_strict_total_order.1 (owned 7 "zzz".toList),
   claim2_strict_total_order.2.1 (common 5) (common 6) (by decide) (by decide)
     (by decide) (by decide) (by decide) (by decide),
   claim2_strict_total_order.2.2.1 (common 0) (common 1) (owned 7 "zzz".toList)
     (by decide) (by decide) (by decide) (by decide) (by decide) (by decide)
     (by decide) (by decide),
   claim2_strict_total_order.2.2.2.1 (common 0) (owned 3 "x".toList),
   claim2_strict_total_order.2.2.2.2.2.1 (owned 2 "a".toList) (common 0)
     (by decide) (by decide) (by decide) (by decide) (by decide) (by decide),
   claim2_strict_total_order.2.2.2.2.2.2 (common 9) (owned 0 "x-foo".toList)
     (by decide) (by decide) (by decide) (by decide)⟩

/-- C3: the hash of a handle is exactly the hash of its content string
(never a function of the stored address), so any two handles with equal
content — in whatever storage states — compare equal and hash equal. -/
theorem claim3_hash_content :
    (∀ h : HPACKHeaderName, hashName h = h.get.map hashStr) ∧
    (∀ (a b : HPACKHeaderName) (s : Str),
      a.deref = .ok s → b.deref = .ok s →
      beqE a b = .ok true ∧ hashName a = hashName b) := by
  refine ⟨fun h => rfl, fun a b s ha hb => ⟨?_, ?_⟩⟩
  · by_cases hp : ptrEq a b = true
    · simp [beqE, hp]
    · simp [beqE, hp, ha, hb, exceptBind_ok]
  · show (a.deref).map hashStr = (b.deref).map hashStr
    rw [ha, hb]

/-- C3 witness: a Borrowed handle for `host` and an Owned handle with
the same content are equal and hash equal. -/
theorem claim3_hash_content_witness :
    beqE (common 9) (owned 0 "host".toList) = .ok true ∧
    hashName (common 9) = hashName (owned 0 "host".toList) :=
  claim3_hash_content.2 (common 9) (owned 0 "host".toList)
    "host".toList (by decide) (by decide)

/-- C4: content access (`get`, `size`, `data`, `c_str`) fails with
`InvalidState` exactly when the handle is Empty; comparison and hashing
of non-Empty handles never fail, and the copy of a valid handle is
itself valid (copying is a total operation in the model — it touches no
fallible dereference beyond the Owned content it carries). -/
theorem claim4_invalid_state_iff_empty :
    (∀ h : HPACKHeaderName,
      (h.get = .error .invalidState ↔ h = .empty) ∧
      (h.size = .error .invalidState ↔ h = .empty) ∧
      (h.data = .error .invalidState ↔ h = .empty) ∧
      (h.c_str = .error .invalidState ↔ h = .empty)) ∧
    (∀ a b : HPACKHeaderName, a ≠ .empty → b ≠ .empty →
      (beqE a b).isOk = true ∧ (bneE a b).isOk = true ∧
      (bltE a b).isOk = true ∧ (bgtE a b).isOk = true ∧
      (bgeE a b).isOk = true ∧ (bleE a b).isOk = true ∧
      (hashName a).isOk = true) ∧
    (∀ (h : HPACKHeaderName) (n : Nat), h ≠ .empty →
      ((copyAddress h n).1).get ≠ .error .invalidState) := by
  refine ⟨fun h => ?_, fun a b hna hnb => ?_, fun h n hne => ?_⟩
  · cases h <;> simp [get, size, data, c_str, deref, Except.map]
  · refine ⟨beqE_isOk hna hnb, ?_, bltE_isOk hna hnb, ?_, ?_, ?_, ?_⟩
    · rw [bneE, isOk_map]
      exact beqE_isOk hna hnb
    · rw [bgtE_eq_bltE]
      exact bltE_isOk hnb hna
    · rw [bgeE, isOk_map]
      exact bltE_isOk hna hnb
    · rw [bleE, isOk_map, bgtE_eq_bltE]
      exact bltE_isOk hnb hna
    · rw [hashName, isOk_map]
      show (deref a).isOk = true
      rw [deref_eq_contentD hna]
      rfl
  · cases h with
    | empty => exact absurd rfl hne
    | common i => simp [copyAddress, get, deref]
    | owned id s => simp [copyAddress, get, deref]

/-- C4 witness. -/
theorem claim4_invalid_state_iff_empty_witness :
    ((beqE (common 9) (owned 5 "host".toList)).isOk = true ∧
      (bneE (common 9) (owned 5 "host".toList)).isOk = true ∧
      (bltE (common 9) (owned 5 "host".toList)).isOk = true ∧
      (bgtE (common 9) (owned 5 "host".toList)).isOk = true ∧
      (bgeE (common 9) (owned 5 "host".toList)).isOk = true ∧
      (bleE (common 9) (owned 5 "host".toList)).isOk = true ∧
      (hashName (common 9)).isOk = true) ∧
    ((copyAddress (owned 5 "host".toList) 6).1).get ≠
      .error .invalidState :=
  ⟨claim4_invalid_state_iff_empty.2.1 (common 9) (owned 5 "host".toList)
      (by decide) (by decide),
   claim4_invalid_state_iff_empty.2.2 (owned 5 "host".toList) 6 (by decide)⟩

/-- C10: equality is reflexive for every handle, including Empty;
comparing two Empty handles is well-defined through the null-pointer
comparison (`==` true, `<` and `>` false) without touching content; and
the dereferencing (error) branch of `==` / `<` is reachable only when
exactly one operand is Empty. -/
theorem claim10_empty_comparisons :
    (∀ a : HPACKHeaderName, beqE a a = .ok true) ∧
    (beqE .empty .empty = .ok true ∧ bltE .empty .empty = .ok false ∧
      bgtE .empty .empty = .ok false) ∧
    (∀ a b : HPACKHeaderName, beqE a b = .error .invalidState →
      (a = .empty ∧ b ≠ .empty) ∨ (a ≠ .empty ∧ b = .empty)) ∧
    (∀ a b : HPACKHeaderName, bltE a b = .error .invalidState →
      (a = .empty ∧ b ≠ .empty) ∨ (a ≠ .empty ∧ b = .empty)) := by
  refine ⟨fun a => ?_, ⟨rfl, rfl, rfl⟩, fun a b h => ?_, fun a b h => ?_⟩
  · cases a <;> simp [beqE, ptrEq]
  · cases a with
    | empty =>
      cases b with
      | empty => simp [beqE, ptrEq] at h
      | common j => exact Or.inl ⟨rfl, by simp⟩
      | owned id s => exact Or.inl ⟨rfl, by simp⟩
    | common i =>
      cases b with
      | empty => exact Or.inr ⟨by simp, rfl⟩
      | common j =>
        by_cases hij : i = j
        · simp [beqE, ptrEq, hij] at h
        · simp [beqE, ptrEq, hij, deref, exceptBind_ok] at h
      | owned id s => simp [beqE, ptrEq, deref, exceptBind_ok] at h
    | owned id s =>
      cases b with
      | empty => exact Or.inr ⟨by simp, rfl⟩
      | common j => simp [beqE, ptrEq, deref, exceptBind_ok] at h
      | owned id2 t =>
        by_cases hij : id = id2
        · simp [beqE, ptrEq, hij] at h
        · simp [beqE, ptrEq, hij, deref, exceptBind_ok] at h
  · cases a with
    | empty =>
      cases b with
      | empty => simp [bltE, isAllocated, ptrLt] at h
      | common j => simp [bltE, isAllocated, ptrLt] at h
      | owned id s => exact Or.inl ⟨rfl, by simp⟩
    | common i =>
      cases b with
      | empty => simp [bltE, isAllocated, ptrLt] at h
      | common j => simp [bltE, isAllocated, ptrLt] at h
      | owned id s => simp [bltE, isAllocated, deref, exceptBind_ok] at h
    | owned id s =>
      cases b with
      | empty => exact Or.inr ⟨by simp, rfl⟩
      | common j => simp [bltE, isAllocated, deref, exceptBind_ok] at h
      | owned id2 t => simp [bltE, isAllocated, deref, exceptBind_ok] at h

/-- C10 witness. -/
theorem claim10_empty_comparisons_witness :
    beqE (owned 4 "x".toList) (owned 4 "x".toList) = .ok true ∧
    ((.empty = (.empty : HPACKHeaderName) ∧
        (owned 0 ([] : Str)) ≠ (.empty : HPACKHeaderName)) ∨
      ((.empty : HPACKHeaderName) ≠ .empty ∧
        (owned 0 ([] : Str)) = (.empty : HPACKHeaderName))) ∧
    (((.empty : HPACKHeaderName) = .empty ∧
        (owned 1 "a".toList) ≠ (.empty : HPACKHeaderName)) ∨
      ((.empty : HPACKHeaderName) ≠ .empty ∧
        (owned 1 "a".toList) = (.empty : HPACKHeaderName))) :=
  ⟨claim10_empty_comparisons.1 (owned 4 "x".toList),
   claim10_empty_comparisons.2.2.1 .empty (owned 0 []) (by decide),
   claim10_empty_comparisons.2.2.2 .empty (owned 1 "a".toList) (by decide)⟩

end HPACKHeaderName

end HPACK
